import Mathlib

/-!
Verification of the wound-care analysis backend.

The development shallowly embeds `backend/app/deepskin_processor.py` and
`backend/app/gemini_enhancer.py`.  Rasters and masks are modelled as finite
grids given by a total pixel function together with explicit dimensions;
Python floats are modelled as exact rationals (`ℚ`), except for the
circular-equivalent diameter, which involves `√` and `π` and is modelled over
`ℝ`.  Calls into the external `deepskin` / OpenCV / Gemini collaborators are
modelled as explicit parameters carrying the collaborator's outcome
(`Except String _` where the collaborator may raise).
-/

namespace WoundCare

/-- An RGB pixel, one rational per channel. -/
abbrev Vec3 := ℚ × ℚ × ℚ

/-- A single-channel raster (`numpy` 2-D array of unsigned bytes).  `pix` is a
total function; only indices below `h`/`w` are meaningful and all pixel
counting is restricted to that range. -/
structure Mask where
  h : ℕ
  w : ℕ
  pix : ℕ → ℕ → ℕ

/-- `int(np.sum(mask > 0))`: the number of in-range strictly positive pixels. -/
def Mask.countPos (m : Mask) : ℕ :=
  ((List.range m.h).map
    (fun i => ((List.range m.w).filter (fun j => 0 < m.pix i j)).length)).sum

/-- `bool(np.any(mask > 0))`. -/
def Mask.anyPos (m : Mask) : Bool :=
  (List.range m.h).any (fun i => (List.range m.w).any (fun j => 0 < m.pix i j))

/-- `np.all(mask == 0)`. -/
def Mask.allZero (m : Mask) : Bool :=
  (List.range m.h).all (fun i => (List.range m.w).all (fun j => m.pix i j = 0))

/-- `np.zeros_like(mask)`. -/
def Mask.zerosLike (m : Mask) : Mask :=
  ⟨m.h, m.w, fun _ _ => 0⟩

/-- `cv2.bitwise_or(a, b)` on byte rasters of equal shape. -/
def maskOr (a b : Mask) : Mask :=
  ⟨a.h, a.w, fun i j => Nat.lor (a.pix i j) (b.pix i j)⟩

/-- `cv2.bitwise_and(a, a, mask=sel)`: keep `a` where `sel` is set, else 0. -/
def maskWith (a sel : Mask) : Mask :=
  ⟨a.h, a.w, fun i j => if 0 < sel.pix i j then a.pix i j else 0⟩

lemma Mask.countPos_zerosLike (m : Mask) : m.zerosLike.countPos = 0 := by
  simp [Mask.countPos, Mask.zerosLike]

lemma Mask.anyPos_zerosLike (m : Mask) : m.zerosLike.anyPos = false := by
  simp [Mask.anyPos, Mask.zerosLike]

lemma Mask.anyPos_iff_countPos (m : Mask) : m.anyPos = true ↔ 0 < m.countPos := by
  rw [Mask.anyPos, Mask.countPos]
  rw [Nat.pos_iff_ne_zero, Ne, List.sum_eq_zero_iff]
  simp [List.any_eq_true, List.length_eq_zero, List.filter_eq_nil_iff,
    Nat.pos_iff_ne_zero]

lemma Mask.countPos_le (m : Mask) : m.countPos ≤ m.h * m.w := by
  rw [Mask.countPos]
  calc ((List.range m.h).map
      (fun i => ((List.range m.w).filter (fun j => 0 < m.pix i j)).length)).sum
      ≤ ((List.range m.h).map (fun _ => m.w)).sum := by
        apply List.sum_le_sum
        intro i _
        simpa using (List.length_filter_le _ (List.range m.w))
    _ = m.h * m.w := by simp [List.map_const', Nat.mul_comm]

/-! ## Severity Mapper (`DeepskinProcessor._get_severity_level`) -/

/-- A severity tier: level name, display color, guidance text. -/
structure Severity where
  level : String
  color : String
  description : String
deriving DecidableEq

/-- The "Mild" tier exactly as built in the source. -/
def mildSeverity : Severity :=
  ⟨"Mild", "#27ae60", "Wound is healing well. Continue current care."⟩

/-- The "Moderate" tier exactly as built in the source. -/
def moderateSeverity : Severity :=
  ⟨"Moderate", "#f39c12", "Active treatment recommended. Monitor closely."⟩

/-- The "Severe" tier exactly as built in the source. -/
def severeSeverity : Severity :=
  ⟨"Severe", "#e74c3c", "Requires immediate attention. Consider specialist consult."⟩

/-- The "Very Severe" tier exactly as built in the source. -/
def verySevereSeverity : Severity :=
  ⟨"Very Severe", "#c0392b", "Critical - seek specialist care immediately."⟩

/-- `DeepskinProcessor._get_severity_level(pwat)`, the threshold cascade from
the source. -/
def getSeverityLevel (pwat : ℚ) : Severity :=
  if pwat < 8 then mildSeverity
  else if pwat < 16 then moderateSeverity
  else if pwat < 24 then severeSeverity
  else verySevereSeverity

/-- Specification-side tier rank: 0 = Mild, 1 = Moderate, 2 = Severe,
3 = Very Severe. -/
def tierIdx (s : ℚ) : ℕ :=
  if s < 8 then 0 else if s < 16 then 1 else if s < 24 then 2 else 3

/-- Specification-side table from tier rank to descriptor. -/
def severityTable (n : ℕ) : Severity :=
  if n = 0 then mildSeverity
  else if n = 1 then moderateSeverity
  else if n = 2 then severeSeverity
  else verySevereSeverity

/-- C2: the severity mapper is total (a Lean function), factors through the
monotone tier rank `tierIdx`, and the four tiers partition the score line with
boundaries at 8, 16 and 24, each tier carrying its fixed color and
description. -/
theorem severity_mapper_tiers :
    (∀ s : ℚ, getSeverityLevel s = severityTable (tierIdx s))
    ∧ (∀ s t : ℚ, s ≤ t → tierIdx s ≤ tierIdx t)
    ∧ (∀ s : ℚ, (tierIdx s = 0 ↔ s < 8)
        ∧ (tierIdx s = 1 ↔ 8 ≤ s ∧ s < 16)
        ∧ (tierIdx s = 2 ↔ 16 ≤ s ∧ s < 24)
        ∧ (tierIdx s = 3 ↔ 24 ≤ s))
    ∧ (∀ s : ℚ, s < 8 → getSeverityLevel s = mildSeverity)
    ∧ (∀ s : ℚ, 8 ≤ s → s < 16 → getSeverityLevel s = moderateSeverity)
    ∧ (∀ s : ℚ, 16 ≤ s → s < 24 → getSeverityLevel s = severeSeverity)
    ∧ (∀ s : ℚ, 24 ≤ s → getSeverityLevel s = verySevereSeverity) := by
  refine ⟨?_, ?_, ?_, ?_, ?_, ?_, ?_⟩
  · intro s
    by_cases h1 : s < 8
    · simp [getSeverityLevel, tierIdx, severityTable, h1]
    · by_cases h2 : s < 16
      · simp [getSeverityLevel, tierIdx, severityTable, h1, h2]
      · by_cases h3 : s < 24
        · simp [getSeverityLevel, tierIdx, severityTable, h1, h2, h3]
        · simp [getSeverityLevel, tierIdx, severityTable, h1, h2, h3]
  · intro s t hst
    unfold tierIdx
    split_ifs <;> first | omega | linarith
  · intro s
    unfold tierIdx
    split_ifs with h1 h2 h3 <;>
      refine ⟨?_, ?_, ?_, ?_⟩ <;> constructor <;> intro h <;>
      first
      | rfl
      | linarith
      | (exact ⟨by linarith, by linarith⟩)
      | (exfalso; norm_num at h)
  · intro s h
    simp [getSeverityLevel, h]
  · intro s h1 h2
    rw [getSeverityLevel, if_neg (by linarith), if_pos h2]
  · intro s h1 h2
    rw [getSeverityLevel, if_neg (by linarith), if_neg (by linarith), if_pos h2]
  · intro s h
    rw [getSeverityLevel, if_neg (by linarith), if_neg (by linarith),
      if_neg (by linarith)]

/-- C2 witness: the mapper evaluated at concrete scores in each tier. -/
theorem severity_mapper_tiers_witness :
    getSeverityLevel 3 = mildSeverity
    ∧ getSeverityLevel 10 = moderateSeverity
    ∧ getSeverityLevel 20 = severeSeverity
    ∧ getSeverityLevel 30 = verySevereSeverity
    ∧ tierIdx 3 ≤ tierIdx 10 :=
  ⟨severity_mapper_tiers.2.2.2.1 3 (by norm_num),
   severity_mapper_tiers.2.2.2.2.1 10 (by norm_num) (by norm_num),
   severity_mapper_tiers.2.2.2.2.2.1 20 (by norm_num) (by norm_num),
   severity_mapper_tiers.2.2.2.2.2.2 30 (by norm_num),
   severity_mapper_tiers.2.1 3 10 (by norm_num)⟩

/-! ## Segmentation split and peri-wound stage (`process_image`, STEP 1-2) -/

/-- The segmentation collaborator's raw output.  `dims3` records whether the
`numpy` array is 3-dimensional (`len(segmentation.shape) == 3`); `channels` is
`shape[2]` when `dims3` holds.  For a 2-D array the single plane is read at
channel index 0. -/
structure Segmentation where
  h : ℕ
  w : ℕ
  dims3 : Bool
  channels : ℕ
  pix : ℕ → ℕ → ℕ → ℕ

/-- The wound mask produced by the channel split: channel 0 in the
multi-channel case, and the array itself (its only plane) otherwise, so the
pixel function is the same expression in both branches. -/
def splitWound (s : Segmentation) : Mask :=
  ⟨s.h, s.w, fun i j => s.pix i j 0⟩

/-- The body mask produced by the channel split: channel 1 when
`len(shape) == 3 and shape[2] >= 2`, otherwise `np.zeros_like(wound_mask)`. -/
def splitBody (s : Segmentation) : Mask :=
  if s.dims3 = true ∧ 2 ≤ s.channels then ⟨s.h, s.w, fun i j => s.pix i j 1⟩
  else ⟨s.h, s.w, fun _ _ => 0⟩

/-- The background mask produced by the channel split: channel 2 when present,
otherwise `np.zeros_like(wound_mask)`. -/
def splitBg (s : Segmentation) : Mask :=
  if s.dims3 = true ∧ 2 ≤ s.channels then
    (if 2 < s.channels then ⟨s.h, s.w, fun i j => s.pix i j 2⟩
     else ⟨s.h, s.w, fun _ _ => 0⟩)
  else ⟨s.h, s.w, fun _ _ => 0⟩

/-- STEP 2 of `process_image`: call the external `get_perilesion_mask`
collaborator (`periFn`), refine by the `imfill`-ed union with the body mask
when the body mask is non-empty, and fall back to an all-zero mask when either
external call raises (`.error`).  `fillFn` is the external `imfill`. -/
def periStage (periFn fillFn : Mask → Except String Mask)
    (wound body : Mask) : Mask :=
  match periFn wound with
  | .error _ => Mask.zerosLike wound
  | .ok p =>
    if body.anyPos then
      match fillFn (maskOr body wound) with
      | .error _ => Mask.zerosLike wound
      | .ok filled => maskWith p filled
    else p

/-- C5 (amended): on a segmentation result with fewer than 2 channels the
split synthesizes all-zero body and background masks and the peri-wound stage
returns, without raising, exactly the perilesion collaborator's output on the
wound-only mask (all zeros only if the collaborator fails or returns zeros);
the body-mask refinement is skipped. -/
theorem single_channel_amended (s : Segmentation)
    (hc : ¬(s.dims3 = true ∧ 2 ≤ s.channels)) :
    splitBody s = ⟨s.h, s.w, fun _ _ => 0⟩
    ∧ splitBg s = ⟨s.h, s.w, fun _ _ => 0⟩
    ∧ (splitBody s).countPos = 0
    ∧ ∀ periFn fillFn : Mask → Except String Mask,
        periStage periFn fillFn (splitWound s) (splitBody s)
          = match periFn (splitWound s) with
            | .ok p => p
            | .error _ => Mask.zerosLike (splitWound s) := by
  have hb : splitBody s = ⟨s.h, s.w, fun _ _ => 0⟩ := by
    rw [splitBody, if_neg hc]
  refine ⟨hb, by rw [splitBg, if_neg hc], ?_, ?_⟩
  · rw [hb]; simp [Mask.countPos]
  · intro periFn fillFn
    have hany : (splitBody s).anyPos = false := by
      rw [hb]; simp [Mask.anyPos]
    rw [periStage]
    cases periFn (splitWound s) with
    | error e => rfl
    | ok p => rw [hany]; simp

/-- A concrete one-channel segmentation result: a 3×3 grid whose only set
pixel is the centre. -/
def segOneChan : Segmentation :=
  ⟨3, 3, true, 1, fun i j _ => if i = 1 ∧ j = 1 then 1 else 0⟩

/-- A faithful miniature of the perilesion collaborator (`get_perilesion_mask`
is a morphological dilation): 8-neighbourhood dilation, clamped at the
borders by truncated subtraction. -/
def dilate1 (m : Mask) : Mask :=
  ⟨m.h, m.w, fun i j =>
    if ([0, 1, 2] : List ℕ).any (fun a =>
        ([0, 1, 2] : List ℕ).any (fun b => 0 < m.pix (i + a - 1) (j + b - 1)))
    then 255 else 0⟩

/-- C5 counterexample: for the one-channel segmentation `segOneChan` and the
dilation collaborator `dilate1`, the peri-wound mask the stage yields is not
all zeros (it has nine set pixels), refuting the claim that a one-channel
segmentation always yields an all-zero peri-wound mask. -/
theorem single_channel_cex :
    ¬ ((periStage (fun m => .ok (dilate1 m)) (fun m => .ok m)
          (splitWound segOneChan) (splitBody segOneChan)).countPos = 0) := by
  decide

/-- C5 witness: the amended statement applied to `segOneChan`, whose channel
count is 1. -/
theorem single_channel_witness :
    (splitBody segOneChan).countPos = 0
    ∧ periStage (fun m => .ok (dilate1 m)) (fun m => .ok m)
        (splitWound segOneChan) (splitBody segOneChan)
        = dilate1 (splitWound segOneChan) := by
  have h := single_channel_amended segOneChan (by decide)
  exact ⟨h.2.2.1, h.2.2.2 (fun m => .ok (dilate1 m)) (fun m => .ok m)⟩

/-! ## Feature Classifier (`DeepskinProcessor._format_features`) -/

/-- A feature value: Python `int`, `float` (exact rational model) or any other
value rendered through `str`. -/
inductive FVal where
  | intv (n : ℤ)
  | floatv (q : ℚ)
  | strv (s : String)
deriving DecidableEq

/-- Round-half-to-even to an integer, the rounding Python's `round` uses. -/
def rhe (q : ℚ) : ℤ :=
  if q - ⌊q⌋ < 1 / 2 then ⌊q⌋
  else if 1 / 2 < q - ⌊q⌋ then ⌊q⌋ + 1
  else if ⌊q⌋ % 2 = 0 then ⌊q⌋ else ⌊q⌋ + 1

/-- Python `round(q, k)`. -/
def roundTo (k : ℕ) (q : ℚ) : ℚ :=
  (rhe (q * 10 ^ k) : ℚ) / 10 ^ k

/-- Value normalization from `_format_features`: ints pass through, floats are
rounded to 4 decimal places, everything else is stringified. -/
def normalizeVal : FVal → FVal
  | .intv n => .intv n
  | .floatv q => .floatv (roundTo 4 q)
  | .strv s => .strv s

/-- Whether `needle` is a leading segment of `hay`. -/
def leadsList : List Char → List Char → Bool
  | [], _ => true
  | _ :: _, [] => false
  | a :: as, b :: bs => a = b && leadsList as bs

/-- Python's `needle in hay` substring test on character lists. -/
def containsSub (needle : List Char) : List Char → Bool
  | [] => needle.isEmpty
  | c :: t => leadsList needle (c :: t) || containsSub needle t

/-- Substring test on strings. -/
def subMatch (needle hay : String) : Bool :=
  containsSub needle.data hay.data

/-- Python `key.lower()` (the feature keys are ASCII). -/
def lowerStr (s : String) : String :=
  ⟨s.data.map Char.toLower⟩

/-- `texture_keys` from the source. -/
def textureKeys : List String :=
  ["contrast", "homogeneity", "energy", "correlation", "asm", "entropy"]

/-- `color_keys` from the source. -/
def colorKeys : List String :=
  ["red", "green", "blue", "hue", "saturation", "value", "rgb"]

/-- `morphology_keys` from the source. -/
def morphologyKeys : List String :=
  ["area", "perimeter", "circularity", "eccentricity", "solidity", "extent"]

/-- `any(t in key_lower for t in keys)`. -/
def matchesAny (keys : List String) (key : String) : Bool :=
  keys.any (fun t => subMatch t (lowerStr key))

/-- The intensity test: `'mean' in key_lower or 'std' in key_lower or
'intensity' in key_lower`. -/
def intensityMatch (key : String) : Bool :=
  subMatch "mean" (lowerStr key) || subMatch "std" (lowerStr key)
    || subMatch "intensity" (lowerStr key)

/-- The category cascade of `_format_features`: texture, then color, then
morphology, then intensity, else Other; first match wins. -/
def categoryOf (key : String) : String :=
  if matchesAny textureKeys key then "Texture"
  else if matchesAny colorKeys key then "Color"
  else if matchesAny morphologyKeys key then "Morphology"
  else if intensityMatch key then "Intensity"
  else "Other"

/-- The fixed insertion order of the `categories` dictionary. -/
def categoryNames : List String :=
  ["Texture", "Color", "Morphology", "Intensity", "Other"]

/-- `DeepskinProcessor._format_features`: bucket the feature map into the five
categories (dictionary order preserved), normalizing values, and drop empty
categories.  An empty feature map yields the empty mapping. -/
def formatFeatures (fs : List (String × FVal)) :
    List (String × List (String × FVal)) :=
  if fs.isEmpty then []
  else categoryNames.filterMap (fun c =>
    let sub := fs.filterMap (fun kv =>
      if categoryOf kv.1 = c then some (kv.1, normalizeVal kv.2) else none)
    if sub.isEmpty then none else some (c, sub))

/-- The concrete feature map of the claim. -/
def claimFeatureMap : List (String × FVal) :=
  [("contrast_x", .floatv 1.2345678), ("redness", .strv "high")]

/-- C3 counterexample: on the claim's feature map the classifier does not
produce Texture/Other as claimed, because "redness" contains the color
keyword "red" and color is checked before the Other fallback. -/
theorem features_example_cex :
    formatFeatures claimFeatureMap
      ≠ [("Texture", [("contrast_x", FVal.floatv 1.2346)]),
         ("Other", [("redness", FVal.strv "high")])] := by
  intro h
  exact absurd (congrArg (List.map Prod.fst) h) (by decide)

/-- C3 (amended): on the claim's feature map the classifier produces
Texture/Color ("redness" matches the color keyword "red"); in general every
key is matched case-insensitively against the texture, color, morphology and
intensity keyword sets in that priority order, first match winning, with
Other as the fallback. -/
theorem features_classifier_amended :
    formatFeatures claimFeatureMap
      = [("Texture", [("contrast_x", FVal.floatv 1.2346)]),
         ("Color", [("redness", FVal.strv "high")])]
    ∧ ∀ k : String,
        (categoryOf k = "Texture" ↔ matchesAny textureKeys k = true)
        ∧ (categoryOf k = "Color" ↔
            matchesAny textureKeys k = false ∧ matchesAny colorKeys k = true)
        ∧ (categoryOf k = "Morphology" ↔
            matchesAny textureKeys k = false ∧ matchesAny colorKeys k = false
            ∧ matchesAny morphologyKeys k = true)
        ∧ (categoryOf k = "Intensity" ↔
            matchesAny textureKeys k = false ∧ matchesAny colorKeys k = false
            ∧ matchesAny morphologyKeys k = false ∧ intensityMatch k = true)
        ∧ (categoryOf k = "Other" ↔
            matchesAny textureKeys k = false ∧ matchesAny colorKeys k = false
            ∧ matchesAny morphologyKeys k = false
            ∧ intensityMatch k = false) := by
  constructor
  · have hr : roundTo 4 (1.2345678 : ℚ) = 1.2346 := by norm_num [roundTo, rhe]
    rw [show formatFeatures claimFeatureMap
        = [("Texture", [("contrast_x", FVal.floatv (roundTo 4 1.2345678))]),
           ("Color", [("redness", FVal.strv "high")])] from rfl, hr]
  · intro k
    unfold categoryOf
    cases h1 : matchesAny textureKeys k <;>
      cases h2 : matchesAny colorKeys k <;>
        cases h3 : matchesAny morphologyKeys k <;>
          cases h4 : intensityMatch k <;> simp

/-- C3 witness: the priority order applied to the key "redness", which the
theorem classifies as Color. -/
theorem features_classifier_witness : categoryOf "redness" = "Color" :=
  ((features_classifier_amended.2 "redness").2.1).mpr ⟨by decide, by decide⟩

/-! ## Geometric Metrics Calculator (`DeepskinProcessor._calculate_wound_metrics`) -/

/-- Python `int(float)`: truncation toward zero. -/
def ratTrunc (q : ℚ) : ℤ :=
  if q < 0 then ⌈q⌉ else ⌊q⌋

/-- Round-half-to-even on a real argument (for Python's `round(x, 2)` applied
to the irrational diameter). -/
noncomputable def rheR (x : ℝ) : ℤ :=
  if x - ⌊x⌋ < 1 / 2 then ⌊x⌋
  else if 1 / 2 < x - ⌊x⌋ then ⌊x⌋ + 1
  else if ⌊x⌋ % 2 = 0 then ⌊x⌋ else ⌊x⌋ + 1

/-- Python `round(x, 2)` over the reals. -/
noncomputable def round2R (x : ℝ) : ℝ :=
  (rheR (100 * x) : ℝ) / 100

lemma rheR_zero : rheR 0 = 0 := by
  rw [rheR]
  norm_num

lemma round2R_zero : round2R 0 = 0 := by
  rw [round2R, mul_zero, rheR_zero]
  norm_num

lemma rhe_nonneg {q : ℚ} (h : 0 ≤ q) : 0 ≤ rhe q := by
  have hf : (0 : ℤ) ≤ ⌊q⌋ := by
    rw [Int.le_floor]; exact_mod_cast h
  rw [rhe]
  split_ifs <;> omega

lemma rhe_le_ceil (q : ℚ) : rhe q ≤ ⌈q⌉ := by
  rw [rhe]
  have h1 : ⌊q⌋ ≤ ⌈q⌉ := Int.floor_le_ceil q
  split_ifs with hlt hgt heven
  · exact h1
  · have hq : (⌊q⌋ : ℚ) < q := by linarith [Int.floor_le q]
    have : (⌊q⌋ : ℚ) < (⌈q⌉ : ℚ) := lt_of_lt_of_le hq (Int.le_ceil q)
    have : ⌊q⌋ < ⌈q⌉ := by exact_mod_cast this
    omega
  · exact h1
  · have hq : (⌊q⌋ : ℚ) < q := by linarith [Int.floor_le q]
    have : (⌊q⌋ : ℚ) < (⌈q⌉ : ℚ) := lt_of_lt_of_le hq (Int.le_ceil q)
    have : ⌊q⌋ < ⌈q⌉ := by exact_mod_cast this
    omega

/-- The percentage formula shared by the wound and peri-wound fields:
`round(count / total * 100, 2) if total > 0 else 0`. -/
def pctOf (count total : ℕ) : ℚ :=
  if 0 < total then roundTo 2 ((count : ℚ) / total * 100) else 0

lemma pctOf_nonneg (c t : ℕ) : 0 ≤ pctOf c t := by
  rw [pctOf]
  split_ifs with ht
  · have hx : (0 : ℚ) ≤ (c : ℚ) / t * 100 := by positivity
    rw [roundTo]
    have := rhe_nonneg (q := (c : ℚ) / t * 100 * 10 ^ 2) (by positivity)
    positivity
  · exact le_refl _

lemma pctOf_le_100 {c t : ℕ} (h : c ≤ t) : pctOf c t ≤ 100 := by
  rw [pctOf]
  split_ifs with ht
  · have htq : (0 : ℚ) < t := by exact_mod_cast ht
    have hx : (c : ℚ) / t * 100 ≤ 100 := by
      have h1 : (c : ℚ) / t ≤ 1 := (div_le_one htq).mpr (by exact_mod_cast h)
      nlinarith
    rw [roundTo]
    have h2 : rhe ((c : ℚ) / t * 100 * 10 ^ 2) ≤ 10000 := by
      refine le_trans (rhe_le_ceil _) ?_
      have : ((c : ℚ) / t * 100) * 10 ^ 2 ≤ 10000 := by nlinarith
      calc ⌈(c : ℚ) / t * 100 * 10 ^ 2⌉ ≤ ⌈(10000 : ℚ)⌉ := Int.ceil_le_ceil this
        _ = 10000 := by norm_num
    have h3 : (rhe ((c : ℚ) / t * 100 * 10 ^ 2) : ℚ) ≤ 10000 := by exact_mod_cast h2
    rw [div_le_iff (by norm_num : (0 : ℚ) < 10 ^ 2)]
    norm_num
    linarith
  · norm_num

lemma pctOf_zero_count (t : ℕ) : pctOf 0 t = 0 := by
  rw [pctOf]
  split_ifs with ht
  · norm_num [roundTo, rhe]
  · rfl

/-- One external contour as returned by `cv2.findContours`, carrying the
derived quantities the source reads from it: `cv2.contourArea`,
`cv2.arcLength(·, True)` and `cv2.boundingRect`. -/
structure Contour where
  area : ℚ
  arc : ℚ
  rx : ℤ
  ry : ℤ
  rw : ℤ
  rh : ℤ
deriving DecidableEq

/-- `max(contours, key=cv2.contourArea)` starting from a first element:
Python's `max` keeps the earliest element among equal keys, so a later
contour replaces the current best only when strictly larger. -/
def pickMain (b : Contour) : List Contour → Contour
  | [] => b
  | c :: cs => pickMain (if b.area < c.area then c else b) cs

lemma le_pickMain_area (b : Contour) (cs : List Contour) :
    b.area ≤ (pickMain b cs).area := by
  induction cs generalizing b with
  | nil => exact le_refl _
  | cons c cs ih =>
    rw [pickMain]
    split_ifs with h
    · exact le_trans (le_of_lt h) (ih c)
    · exact ih b

lemma pickMain_mem (b : Contour) (cs : List Contour) :
    pickMain b cs ∈ b :: cs := by
  induction cs generalizing b with
  | nil => simp [pickMain]
  | cons c cs ih =>
    rw [pickMain]
    split_ifs with h
    · rcases (List.mem_cons).mp (ih c) with h1 | h1
      · rw [h1]
        exact List.mem_cons_of_mem _ (List.mem_cons_self c cs)
      · exact List.mem_cons_of_mem _ (List.mem_cons_of_mem _ h1)
    · rcases (List.mem_cons).mp (ih b) with h1 | h1
      · rw [h1]
        exact List.mem_cons_self b (c :: cs)
      · exact List.mem_cons_of_mem _ (List.mem_cons_of_mem _ h1)

lemma pickMain_max (b : Contour) (cs : List Contour) :
    ∀ d ∈ b :: cs, d.area ≤ (pickMain b cs).area := by
  induction cs generalizing b with
  | nil =>
    intro d hd
    rcases (List.mem_cons).mp hd with h | h
    · exact h ▸ le_refl _
    · simp at h
  | cons c cs ih =>
    intro d hd
    rw [pickMain]
    rcases (List.mem_cons).mp hd with h | h
    · subst h
      split_ifs with harea
      · exact le_trans (le_of_lt harea) (le_pickMain_area c cs)
      · exact le_pickMain_area d cs
    · rcases (List.mem_cons).mp h with h1 | h1
      · subst h1
        split_ifs with harea
        · exact le_pickMain_area d cs
        · exact le_trans (le_of_not_lt harea) (le_pickMain_area b cs)
      · split_ifs with harea
        · exact ih c d (List.mem_cons_of_mem _ h1)
        · exact ih b d (List.mem_cons_of_mem _ h1)

/-- The metrics record built by `_calculate_wound_metrics`.  The diameter
field is real-valued (`2·√(area/π)` rounded to two decimals). -/
structure Metrics where
  wound_area_pixels : ℕ
  wound_area_percentage : ℚ
  peri_area_pixels : ℕ
  peri_area_percentage : ℚ
  wound_perimeter_pixels : ℤ
  estimated_diameter_pixels : ℝ
  bb_width : ℤ
  bb_height : ℤ
  bb_x : ℤ
  bb_y : ℤ

/-- `DeepskinProcessor._calculate_wound_metrics(wound_mask, peri_mask,
img_shape)`.  `contours` is the outcome of the external
`cv2.findContours(wound_mask, RETR_EXTERNAL, CHAIN_APPROX_SIMPLE)`.  With no
contour, perimeter/diameter/bounding box are zero; otherwise they derive from
the maximum-area contour, with the diameter computed from the wound pixel
count. -/
noncomputable def calcWoundMetrics (wm pm : Mask) (fh fw : ℕ)
    (contours : List Contour) : Metrics :=
  let total := fh * fw
  let wp := wm.countPos
  let pp := pm.countPos
  let geo : ℚ × ℝ × (ℤ × ℤ × ℤ × ℤ) :=
    match contours with
    | [] => (0, 0, (0, 0, 0, 0))
    | c :: cs =>
      let main := pickMain c cs
      (main.arc,
       (if 0 < wp then 2 * Real.sqrt ((wp : ℝ) / Real.pi) else 0),
       (main.rx, main.ry, main.rw, main.rh))
  { wound_area_pixels := wp
    wound_area_percentage := pctOf wp total
    peri_area_pixels := pp
    peri_area_percentage := pctOf pp total
    wound_perimeter_pixels := ratTrunc geo.1
    estimated_diameter_pixels := round2R geo.2.1
    bb_width := geo.2.2.2.2.1
    bb_height := geo.2.2.2.2.2
    bb_x := geo.2.2.1
    bb_y := geo.2.2.2.1 }

/-- C4 (amended): for a mask whose dimensions match the frame, the wound area
percentage lies in [0,100]; it is 0 whenever the mask has no set pixel and
whenever the frame has zero area.  (The converse of the zero case fails:
rounding to two decimals sends sufficiently small nonzero masks to 0 as
well.) -/
theorem pct_bounds_amended (m p : Mask) (fh fw : ℕ) (cs : List Contour)
    (hh : m.h = fh) (hw : m.w = fw) :
    0 ≤ (calcWoundMetrics m p fh fw cs).wound_area_percentage
    ∧ (calcWoundMetrics m p fh fw cs).wound_area_percentage ≤ 100
    ∧ (m.countPos = 0 →
        (calcWoundMetrics m p fh fw cs).wound_area_percentage = 0)
    ∧ (fh * fw = 0 →
        (calcWoundMetrics m p fh fw cs).wound_area_percentage = 0) := by
  have hproj : (calcWoundMetrics m p fh fw cs).wound_area_percentage
      = pctOf m.countPos (fh * fw) := rfl
  rw [hproj]
  refine ⟨pctOf_nonneg _ _, ?_, ?_, ?_⟩
  · exact pctOf_le_100 (by rw [← hh, ← hw]; exact m.countPos_le)
  · intro h0
    rw [h0]
    exact pctOf_zero_count _
  · intro h0
    rw [pctOf, if_neg (by omega)]

/-- A 1×40000 mask with exactly one set pixel: 0.0025% of the frame. -/
def thinMask : Mask :=
  ⟨1, 40000, fun _ j => if j = 0 then 1 else 0⟩

lemma thin_filter (n : ℕ) :
    ((List.range n).filter
      (fun j => decide (0 < if j = 0 then 1 else 0))).length
      = if 0 < n then 1 else 0 := by
  induction n with
  | zero => simp
  | succ k ih =>
    rw [List.range_succ, List.filter_append, List.length_append, ih]
    cases k <;> simp

lemma thinMask_count : thinMask.countPos = 1 := by
  show ((List.range 1).map
      (fun _ => ((List.range 40000).filter
        (fun j => decide (0 < if j = 0 then 1 else 0))).length)).sum = 1
  rw [show List.range 1 = [0] from rfl]
  simp only [List.map_cons, List.map_nil, List.sum_cons, List.sum_nil]
  rw [thin_filter]
  norm_num

/-- C4 counterexample: the metrics of `thinMask` over its own 1×40000 frame
report a wound area percentage of exactly 0 although the mask has a set
pixel, refuting the claimed "percentage = 0 iff no set pixels". -/
theorem pct_zero_nonzero_mask_cex :
    (calcWoundMetrics thinMask thinMask 1 40000 []).wound_area_percentage = 0
    ∧ thinMask.countPos ≠ 0 := by
  constructor
  · show pctOf thinMask.countPos (1 * 40000) = 0
    rw [thinMask_count]
    norm_num [pctOf, roundTo, rhe]
  · rw [thinMask_count]
    norm_num

/-- C4 witness: the amended bounds applied to `thinMask` on its matching
frame. -/
theorem pct_bounds_witness :
    0 ≤ (calcWoundMetrics thinMask thinMask 1 40000 []).wound_area_percentage
    ∧ (calcWoundMetrics thinMask thinMask 1 40000 []).wound_area_percentage
        ≤ 100 := by
  have h := pct_bounds_amended thinMask thinMask 1 40000 [] rfl rfl
  exact ⟨h.1, h.2.1⟩

/-- C8 (amended): with no external contour, the perimeter, diameter and
bounding box of the metrics are all zero; otherwise the main contour is a
maximum-area contour of the list (first maximum wins), the perimeter field is
the integer truncation of the main contour's closed arc length, the diameter
field is 2·√(wound_pixel_count/π) — computed from the mask's set-pixel count,
not the contour's polygonal area — rounded to two decimal places, and the
bounding box is the main contour's. -/
theorem metrics_geometry_amended (wm pm : Mask) (fh fw : ℕ) :
    ((calcWoundMetrics wm pm fh fw []).wound_perimeter_pixels = 0
      ∧ (calcWoundMetrics wm pm fh fw []).estimated_diameter_pixels = 0
      ∧ (calcWoundMetrics wm pm fh fw []).bb_x = 0
      ∧ (calcWoundMetrics wm pm fh fw []).bb_y = 0
      ∧ (calcWoundMetrics wm pm fh fw []).bb_width = 0
      ∧ (calcWoundMetrics wm pm fh fw []).bb_height = 0)
    ∧ ∀ (c : Contour) (cs : List Contour),
        pickMain c cs ∈ c :: cs
        ∧ (∀ d ∈ c :: cs, d.area ≤ (pickMain c cs).area)
        ∧ (calcWoundMetrics wm pm fh fw (c :: cs)).wound_perimeter_pixels
            = ratTrunc (pickMain c cs).arc
        ∧ (calcWoundMetrics wm pm fh fw (c :: cs)).estimated_diameter_pixels
            = round2R (2 * Real.sqrt ((wm.countPos : ℝ) / Real.pi))
        ∧ (calcWoundMetrics wm pm fh fw (c :: cs)).bb_x = (pickMain c cs).rx
        ∧ (calcWoundMetrics wm pm fh fw (c :: cs)).bb_y = (pickMain c cs).ry
        ∧ (calcWoundMetrics wm pm fh fw (c :: cs)).bb_width
            = (pickMain c cs).rw
        ∧ (calcWoundMetrics wm pm fh fw (c :: cs)).bb_height
            = (pickMain c cs).rh := by
  constructor
  · refine ⟨?_, ?_, rfl, rfl, rfl, rfl⟩
    · show ratTrunc 0 = 0
      norm_num [ratTrunc]
    · show round2R 0 = 0
      exact round2R_zero
  · intro c cs
    refine ⟨pickMain_mem c cs, pickMain_max c cs, rfl, ?_, rfl, rfl, rfl, rfl⟩
    have hd : (calcWoundMetrics wm pm fh fw (c :: cs)).estimated_diameter_pixels
        = round2R (if 0 < wm.countPos
            then 2 * Real.sqrt ((wm.countPos : ℝ) / Real.pi) else 0) := rfl
    by_cases h : 0 < wm.countPos
    · rw [hd, if_pos h]
    · rw [hd, if_neg h]
      have h0 : wm.countPos = 0 := by omega
      rw [h0]
      simp [Real.sqrt_zero]

/-- A contour whose closed arc length is 3.5. -/
def cexContour : Contour := ⟨1, 7 / 2, 0, 0, 1, 1⟩

/-- A 1×1 all-set mask. -/
def unitMask : Mask := ⟨1, 1, fun _ _ => 1⟩

/-- C8 counterexample: for a contour of arc length 3.5, the stored perimeter
field is `int(3.5) = 3`, not the closed arc length itself — the claim's
"perimeter is its closed arc length" fails because the field truncates to an
integer. -/
theorem metrics_arc_cex :
    ¬(((calcWoundMetrics unitMask unitMask 1 1
          [cexContour]).wound_perimeter_pixels : ℚ) = cexContour.arc) := by
  have h : (calcWoundMetrics unitMask unitMask 1 1
      [cexContour]).wound_perimeter_pixels = ratTrunc (7 / 2 : ℚ) := rfl
  rw [h, show cexContour.arc = (7 / 2 : ℚ) from rfl]
  norm_num [ratTrunc]

/-- C8 witness: the amended geometry statement evaluated on `unitMask` with
the empty contour list and with the single contour `cexContour`. -/
theorem metrics_geometry_witness :
    (calcWoundMetrics unitMask unitMask 1 1 []).wound_perimeter_pixels = 0
    ∧ pickMain cexContour [] ∈ [cexContour]
    ∧ (calcWoundMetrics unitMask unitMask 1 1
        [cexContour]).wound_perimeter_pixels
        = ratTrunc (pickMain cexContour []).arc := by
  have h := metrics_geometry_amended unitMask unitMask 1 1
  exact ⟨h.1.1, (h.2 cexContour []).1, (h.2 cexContour []).2.2.1⟩

/-! ## Heatmap compositing (`DeepskinProcessor._create_all_visualizations`) -/

/-- A 3-channel raster; pixel values are rationals so that the float32
blending stage is exact. -/
structure Img where
  h : ℕ
  w : ℕ
  pix : ℕ → ℕ → Vec3

/-- `cv2.addWeighted(a, al, b, be, 0)`: per-pixel `al·a + be·b`. -/
def addWeighted (a : Img) (al : ℚ) (b : Img) (be : ℚ) : Img :=
  ⟨a.h, a.w, fun i j =>
    (al * (a.pix i j).1 + be * (b.pix i j).1,
     al * (a.pix i j).2.1 + be * (b.pix i j).2.1,
     al * (a.pix i j).2.2 + be * (b.pix i j).2.2)⟩

/-- `overlay = np.zeros_like(heatmap); overlay[mask > 0] = c`. -/
def maskOverlay (base : Img) (m : Mask) (c : Vec3) : Img :=
  ⟨base.h, base.w, fun i j => if 0 < m.pix i j then c else (0, 0, 0)⟩

/-- The wound stage of the heatmap: reddish overlay at 0.4 opacity, applied
only when the wound mask has a set pixel. -/
def woundBlend (base : Img) (m : Mask) : Img :=
  if m.anyPos then addWeighted base 0.6 (maskOverlay base m (255, 100, 100)) 0.4
  else base

/-- The peri-wound stage of the heatmap: bluish overlay at 0.4 opacity,
applied only when the peri-wound mask has a set pixel. -/
def periBlend (base : Img) (m : Mask) : Img :=
  if m.anyPos then addWeighted base 0.6 (maskOverlay base m (100, 100, 255)) 0.4
  else base

/-- The body stage of the heatmap: greenish overlay at 0.2 opacity, guarded
by the source's double test `np.any(body_mask > 0) and not
np.all(body_mask == 0)`. -/
def bodyBlend (base : Img) (m : Mask) : Img :=
  if m.anyPos = true ∧ ¬m.allZero = true then
    addWeighted base 0.8 (maskOverlay base m (100, 255, 100)) 0.2
  else base

/-- `np.clip(·, 0, 255).astype(np.uint8)` on one channel. -/
def clip8 (q : ℚ) : ℚ :=
  ((ratTrunc (if q < 0 then 0 else if 255 < q then 255 else q) : ℤ) : ℚ)

/-- Clip-and-truncate a whole raster back to bytes. -/
def clipImg (a : Img) : Img :=
  ⟨a.h, a.w, fun i j =>
    (clip8 (a.pix i j).1, clip8 (a.pix i j).2.1, clip8 (a.pix i j).2.2)⟩

/-- The heatmap of `_create_all_visualizations`: the three conditional
blends applied in order wound, peri-wound, body, then clipped to bytes. -/
def makeHeatmap (rgb : Img) (wm pm bm : Mask) : Img :=
  clipImg (bodyBlend (periBlend (woundBlend rgb wm) pm) bm)

/-- `np.vstack([a, b])`. -/
def vstack (a b : Img) : Img :=
  ⟨a.h + b.h, a.w, fun i j => if i < a.h then a.pix i j else b.pix (i - a.h) j⟩

/-- The composited heatmap with the 60-pixel-high legend strip appended
below.  `legendPix` is the content of the legend raster (a zero canvas drawn
on by the external `cv2.rectangle` / `cv2.putText`); its dimensions are fixed
by the source at `(60, heatmap width)`. -/
def heatmapWithLegend (rgb : Img) (wm pm bm : Mask)
    (legendPix : ℕ → ℕ → Vec3) : Img :=
  vstack (makeHeatmap rgb wm pm bm) ⟨60, (makeHeatmap rgb wm pm bm).w, legendPix⟩

lemma woundBlend_h (base : Img) (m : Mask) : (woundBlend base m).h = base.h := by
  rw [woundBlend]; split_ifs <;> rfl

lemma woundBlend_w (base : Img) (m : Mask) : (woundBlend base m).w = base.w := by
  rw [woundBlend]; split_ifs <;> rfl

lemma periBlend_h (base : Img) (m : Mask) : (periBlend base m).h = base.h := by
  rw [periBlend]; split_ifs <;> rfl

lemma periBlend_w (base : Img) (m : Mask) : (periBlend base m).w = base.w := by
  rw [periBlend]; split_ifs <;> rfl

lemma bodyBlend_h (base : Img) (m : Mask) : (bodyBlend base m).h = base.h := by
  rw [bodyBlend]; split_ifs <;> rfl

lemma bodyBlend_w (base : Img) (m : Mask) : (bodyBlend base m).w = base.w := by
  rw [bodyBlend]; split_ifs <;> rfl

lemma makeHeatmap_h (rgb : Img) (wm pm bm : Mask) :
    (makeHeatmap rgb wm pm bm).h = rgb.h := by
  show (bodyBlend (periBlend (woundBlend rgb wm) pm) bm).h = rgb.h
  rw [bodyBlend_h, periBlend_h, woundBlend_h]

lemma makeHeatmap_w (rgb : Img) (wm pm bm : Mask) :
    (makeHeatmap rgb wm pm bm).w = rgb.w := by
  show (bodyBlend (periBlend (woundBlend rgb wm) pm) bm).w = rgb.w
  rw [bodyBlend_w, periBlend_w, woundBlend_w]

/-- C9: the heatmap is built by blending flat-color overlays sequentially in
the order wound (0.4 opacity), peri-wound (0.4 opacity), body (0.2 opacity),
each stage a no-op when its mask is empty, and the 60-pixel legend strip is
appended below, so the result has width w and height h + 60; rows below h
read the legend content. -/
theorem heatmap_compose (rgb : Img) (wm pm bm : Mask)
    (lp : ℕ → ℕ → Vec3) :
    (heatmapWithLegend rgb wm pm bm lp).h = rgb.h + 60
    ∧ (heatmapWithLegend rgb wm pm bm lp).w = rgb.w
    ∧ (∀ i j, i < rgb.h →
        (heatmapWithLegend rgb wm pm bm lp).pix i j
          = (makeHeatmap rgb wm pm bm).pix i j)
    ∧ (∀ i j, (heatmapWithLegend rgb wm pm bm lp).pix (rgb.h + i) j = lp i j)
    ∧ (wm.anyPos = false → woundBlend rgb wm = rgb)
    ∧ (wm.anyPos = true → ∀ i j, 0 < wm.pix i j →
        (woundBlend rgb wm).pix i j
          = (0.6 * (rgb.pix i j).1 + 0.4 * 255,
             0.6 * (rgb.pix i j).2.1 + 0.4 * 100,
             0.6 * (rgb.pix i j).2.2 + 0.4 * 100))
    ∧ (pm.anyPos = false → ∀ x : Img, periBlend x pm = x)
    ∧ (pm.anyPos = true → ∀ (x : Img) (i j : ℕ), 0 < pm.pix i j →
        (periBlend x pm).pix i j
          = (0.6 * (x.pix i j).1 + 0.4 * 100,
             0.6 * (x.pix i j).2.1 + 0.4 * 100,
             0.6 * (x.pix i j).2.2 + 0.4 * 255))
    ∧ (¬(bm.anyPos = true ∧ ¬bm.allZero = true) →
        ∀ x : Img, bodyBlend x bm = x)
    ∧ (bm.anyPos = true → bm.allZero = false →
        ∀ (x : Img) (i j : ℕ), 0 < bm.pix i j →
        (bodyBlend x bm).pix i j
          = (0.8 * (x.pix i j).1 + 0.2 * 100,
             0.8 * (x.pix i j).2.1 + 0.2 * 255,
             0.8 * (x.pix i j).2.2 + 0.2 * 100))
    ∧ makeHeatmap rgb wm pm bm
        = clipImg (bodyBlend (periBlend (woundBlend rgb wm) pm) bm) := by
  refine ⟨?_, ?_, ?_, ?_, ?_, ?_, ?_, ?_, ?_, ?_, rfl⟩
  · show (makeHeatmap rgb wm pm bm).h + 60 = rgb.h + 60
    rw [makeHeatmap_h]
  · show (makeHeatmap rgb wm pm bm).w = rgb.w
    exact makeHeatmap_w rgb wm pm bm
  · intro i j hi
    show (if i < (makeHeatmap rgb wm pm bm).h then _ else _) = _
    rw [if_pos (by rw [makeHeatmap_h]; exact hi)]
  · intro i j
    show (if rgb.h + i < (makeHeatmap rgb wm pm bm).h then _ else _) = _
    rw [if_neg (by rw [makeHeatmap_h]; omega), makeHeatmap_h]
    rw [Nat.add_sub_cancel_left]
  · intro hany
    rw [woundBlend, hany]
    simp
  · intro hany i j hij
    rw [woundBlend, hany]
    simp only [if_true, addWeighted, maskOverlay, if_pos hij]
  · intro hany x
    rw [periBlend, hany]
    simp
  · intro hany x i j hij
    rw [periBlend, hany]
    simp only [if_true, addWeighted, maskOverlay, if_pos hij]
  · intro hcond x
    rw [bodyBlend, if_neg hcond]
  · intro hany hzero x i j hij
    rw [bodyBlend, if_pos ⟨hany, by rw [hzero]; exact Bool.false_ne_true⟩]
    simp only [addWeighted, maskOverlay, if_pos hij]

/-- A 1×1 image with a fixed pixel. -/
def onePix : Img := ⟨1, 1, fun _ _ => (10, 20, 30)⟩

/-- A 1×1 all-zero mask. -/
def zeroMask : Mask := ⟨1, 1, fun _ _ => 0⟩

/-- C9 witness: dimensions and the wound-stage formula evaluated on a
concrete 1×1 image. -/
theorem heatmap_compose_witness :
    (heatmapWithLegend onePix unitMask unitMask zeroMask
        (fun _ _ => (0, 0, 0))).h = onePix.h + 60
    ∧ (woundBlend onePix unitMask).pix 0 0
        = (0.6 * (onePix.pix 0 0).1 + 0.4 * 255,
           0.6 * (onePix.pix 0 0).2.1 + 0.4 * 100,
           0.6 * (onePix.pix 0 0).2.2 + 0.4 * 100) := by
  have h := heatmap_compose onePix unitMask unitMask zeroMask
    (fun _ _ => (0, 0, 0))
  exact ⟨h.1, h.2.2.2.2.2.1 (by decide) 0 0 (by decide)⟩

/-! ## Remote Narrative Client (`GeminiEnhancer.analyze_wound`) -/

/-- The result dictionary shapes of `analyze_wound` and its strategies,
flattened into one record of optional fields (absent keys are `none`).  The
wall-clock `timestamp` and the `model_used` echo carry no control flow and
are not modelled. -/
structure AWOut where
  success : Bool
  analysis : Option String := none
  strategy : Option String := none
  error : Option String := none
  details : Option String := none
  note : Option String := none
  availableModels : Option (List String) := none
deriving DecidableEq

/-- `self.fallback_models` from the source. -/
def fallbackModels : List String :=
  ["gemini-2.5-flash-image", "gemini-1.5-flash", "gemini-1.5-pro",
   "gemini-pro-vision"]

/-- `GeminiEnhancer.analyze_wound`.  Each strategy catches its own failure,
so its outcome is a value: `.ok text` for a success record and `.error msg`
for the structured failure record it returns.  The function returns the
result together with the trace of strategies actually invoked, mirroring the
short-circuiting orchestration: strategy 2 runs only after strategy 1
reports failure, and so on; if all three fail the overall failure carries
the third strategy's error as `details`. -/
def analyzeWound (available clientReady modelReady : Bool)
    (stratBytes stratPil stratSimple : Except String String) :
    AWOut × List String :=
  if available = false ∨ clientReady = false ∨ modelReady = false then
    ({ success := false, error := some "Gemini not available",
       note := some "Check API key and model access",
       availableModels := some fallbackModels }, [])
  else
    match stratBytes with
    | .ok t => ({ success := true, analysis := some t,
                  strategy := some "bytes" }, ["bytes"])
    | .error _ =>
      match stratPil with
      | .ok t => ({ success := true, analysis := some t,
                    strategy := some "pil" }, ["bytes", "pil"])
      | .error _ =>
        match stratSimple with
        | .ok t => ({ success := true, analysis := some t,
                      strategy := some "simple",
                      note := some "Analysis without Deepskin context" },
                    ["bytes", "pil", "simple"])
        | .error e =>
          ({ success := false, error := some "All analysis strategies failed",
             details := some e }, ["bytes", "pil", "simple"])

/-- C6: when strategy 1 (bytes) fails and strategy 2 (pil) succeeds, the
result is a success tagged "pil" and strategy 3 is never invoked; when all
three strategies fail, the result is the structured failure whose `details`
is the third strategy's error message. -/
theorem analyze_strategy_order :
    (∀ (e1 t : String),
      (analyzeWound true true true (.error e1) (.ok t)
          (.error "unreached")).1.success = true
      ∧ (analyzeWound true true true (.error e1) (.ok t)
          (.error "unreached")).1.strategy = some "pil"
      ∧ (analyzeWound true true true (.error e1) (.ok t)
          (.error "unreached")).2 = ["bytes", "pil"]
      ∧ "simple" ∉ (analyzeWound true true true (.error e1) (.ok t)
          (.error "unreached")).2)
    ∧ (∀ (e1 e2 e3 : String) (s3 : Except String String), s3 = .error e3 →
      (analyzeWound true true true (.error e1) (.error e2) s3).1
        = { success := false, error := some "All analysis strategies failed",
            details := some e3 }
      ∧ (analyzeWound true true true (.error e1) (.error e2) s3).2
        = ["bytes", "pil", "simple"]) := by
  constructor
  · intro e1 t
    refine ⟨rfl, rfl, rfl, ?_⟩
    show "simple" ∉ (["bytes", "pil"] : List String)
    decide
  · intro e1 e2 e3 s3 hs3
    subst hs3
    exact ⟨rfl, rfl⟩

/-- C6 witness: the two parts of the strategy-order theorem at concrete
error and analysis strings. -/
theorem analyze_strategy_order_witness :
    (analyzeWound true true true (.error "boom") (.ok "narrative")
        (.error "unreached")).1.strategy = some "pil"
    ∧ (analyzeWound true true true (.error "a") (.error "b")
        (.error "c")).1.details = some "c" := by
  have h1 := analyze_strategy_order.1 "boom" "narrative"
  have h2 := analyze_strategy_order.2 "a" "b" "c" (.error "c") rfl
  exact ⟨h1.2.1, by rw [h2.1]⟩

/-! ## `DeepskinProcessor.process_image` -/

/-- The outcomes of every external call `process_image` makes, one analysis
run's worth.  `seg` is `wound_segmentation`; `periFn` is
`get_perilesion_mask`; `fillFn` is `imfill`; `features` is
`evaluate_features`; `score` is `evaluate_PWAT_score`; `contours` is
`cv2.findContours` on the wound mask; `visFail` models an exception raised
inside the visualization try-block; `legendPix` is the legend raster content
drawn by `cv2.rectangle` / `cv2.putText`. -/
structure Collabs where
  seg : Except String Segmentation
  periFn : Mask → Except String Mask
  fillFn : Mask → Except String Mask
  features : Except String (List (String × FVal))
  score : Except String ℚ
  contours : List Contour
  visFail : Bool
  legendPix : ℕ → ℕ → Vec3

/-- The success-result dictionary of `process_image` (the base64-encoded
image payloads are byte-level re-encodings of fields already present and are
not duplicated here; of the visualizations the modelled one is the heatmap,
`none` when the visualization try-block raised before producing it). -/
structure AnalysisRecord where
  pwat_score : ℚ
  pwat_severity : Severity
  wound_detected : Bool
  features : List (String × List (String × FVal))
  wound_metrics : Metrics
  heatmap : Option Img
  raw_wound_area_pixels : ℕ
  raw_peri_area_pixels : ℕ
  raw_body_area_pixels : ℕ
  raw_height : ℕ
  raw_width : ℕ

/-- What `process_image` hands back to its caller: always a dictionary,
either `success: false` with an error string or `success: true` with the
analysis record. -/
inductive ProcResult where
  | failure (error : String)
  | success (r : AnalysisRecord)

/-- `DeepskinProcessor.process_image`.  `decoded` is the outcome of
`cv2.imdecode` (`none` models the `bgr is None` branch).  Decode and
segmentation failures abort with `success: false`; a failing feature
extraction substitutes the error-marker map, a failing score substitutes
0.0, a failing peri-wound stage substitutes an all-zero mask, and a failing
visualization block only loses visualizations. -/
noncomputable def processImage (decoded : Option Img) (C : Collabs) :
    ProcResult :=
  match decoded with
  | none => .failure "Invalid image format"
  | some rgb =>
    match C.seg with
    | .error e => .failure ("Segmentation failed: " ++ e)
    | .ok seg =>
      let wound := splitWound seg
      let body := splitBody seg
      let peri := periStage C.periFn C.fillFn wound body
      let feats := match C.features with
        | .ok f => f
        | .error e => [("error", FVal.strv e)]
      let score : ℚ := match C.score with
        | .ok s => s
        | .error _ => 0
      let vis : Option Img :=
        if C.visFail then none
        else some (heatmapWithLegend rgb wound peri body C.legendPix)
      .success {
        pwat_score := score
        pwat_severity := getSeverityLevel score
        wound_detected := wound.anyPos
        features := formatFeatures feats
        wound_metrics := calcWoundMetrics wound peri rgb.h rgb.w C.contours
        heatmap := vis
        raw_wound_area_pixels := wound.countPos
        raw_peri_area_pixels := peri.countPos
        raw_body_area_pixels := body.countPos
        raw_height := rgb.h
        raw_width := rgb.w }

/-- C1: `process_image` is total over all collaborator outcomes; a decode
failure or a segmentation failure yields the `success: false` record with
its error string, and whenever segmentation succeeds the result is a
`success: true` record in which a failed feature extraction is replaced by
the error-marker map, a failed score by 0.0, a failed peri-wound stage by an
all-zero (zero-count) mask, and a failed visualization block by an absent
heatmap. -/
theorem processImage_error_policy :
    (∀ C : Collabs, processImage none C = .failure "Invalid image format")
    ∧ (∀ (rgb : Img) (C : Collabs) (e : String), C.seg = .error e →
        processImage (some rgb) C = .failure ("Segmentation failed: " ++ e))
    ∧ (∀ (rgb : Img) (C : Collabs) (s : Segmentation), C.seg = .ok s →
        ∃ r : AnalysisRecord, processImage (some rgb) C = .success r
          ∧ (∀ e, C.features = .error e →
              r.features = formatFeatures [("error", FVal.strv e)])
          ∧ (∀ e, C.score = .error e → r.pwat_score = 0)
          ∧ (∀ e, C.periFn (splitWound s) = .error e →
              r.raw_peri_area_pixels = 0)
          ∧ (C.visFail = true → r.heatmap = none)) := by
  refine ⟨fun C => rfl, ?_, ?_⟩
  · intro rgb C e h
    simp only [processImage, h]
  · intro rgb C s h
    simp only [processImage, h]
    refine ⟨_, rfl, ?_, ?_, ?_, ?_⟩
    · intro e he
      simp only [he]
    · intro e he
      simp only [he]
    · intro e he
      simp only [periStage, he, Mask.countPos_zerosLike]
    · intro hv
      simp only [hv, if_true]

/-- The image handed to the success-path witnesses. -/
def img0 : Img := ⟨2, 2, fun _ _ => (0, 0, 0)⟩

/-- A collaborator bundle in which everything fails. -/
def collabsFail : Collabs :=
  { seg := .error "model crash", periFn := fun m => .ok (dilate1 m),
    fillFn := fun m => .ok m, features := .error "feat fail",
    score := .error "score fail", contours := [], visFail := true,
    legendPix := fun _ _ => (0, 0, 0) }

/-- A collaborator bundle whose segmentation succeeds while every recovered
stage fails. -/
def collabsOk : Collabs :=
  { collabsFail with
    seg := Except.ok segOneChan,
    periFn := fun _ => Except.error "peri fail" }

/-- C1 witness: the error policy evaluated on a bad decode, a failing
segmentation and a succeeding segmentation with all degraded stages. -/
theorem processImage_error_policy_witness :
    processImage none collabsFail = .failure "Invalid image format"
    ∧ processImage (some img0) collabsFail
        = .failure ("Segmentation failed: " ++ "model crash")
    ∧ ∃ r, processImage (some img0) collabsOk = .success r
        ∧ r.features = formatFeatures [("error", FVal.strv "feat fail")]
        ∧ r.pwat_score = 0
        ∧ r.raw_peri_area_pixels = 0
        ∧ r.heatmap = none := by
  refine ⟨processImage_error_policy.1 collabsFail,
    processImage_error_policy.2.1 img0 collabsFail "model crash" rfl, ?_⟩
  obtain ⟨r, hr, hf, hs, hp, hv⟩ :=
    processImage_error_policy.2.2 img0 collabsOk segOneChan rfl
  exact ⟨r, hr, hf "feat fail" rfl, hs "score fail" rfl,
    hp "peri fail" rfl, hv rfl⟩

/-- C7: when the score collaborator raises, `process_image` behaves exactly
as it would on a genuine score of 0.0: the whole result is identical, the
reported score is 0 and the reported severity is the Mild tier. -/
theorem score_failure_mild (rgb : Img) (C : Collabs) (s : Segmentation)
    (e : String) (hseg : C.seg = .ok s) (hscore : C.score = .error e) :
    processImage (some rgb) C
      = processImage (some rgb) { C with score := .ok 0 }
    ∧ ∃ r, processImage (some rgb) C = .success r
        ∧ r.pwat_score = 0 ∧ r.pwat_severity = mildSeverity := by
  constructor
  · simp only [processImage, hseg, hscore]
  · simp only [processImage, hseg]
    refine ⟨_, rfl, ?_, ?_⟩
    · simp only [hscore]
    · simp only [hscore]
      norm_num [getSeverityLevel, mildSeverity]

/-- C7 witness: the score-failure behavior on the concrete bundle
`collabsOk`, whose score collaborator fails. -/
theorem score_failure_mild_witness :
    ∃ r, processImage (some img0) collabsOk = .success r
      ∧ r.pwat_score = 0 ∧ r.pwat_severity = mildSeverity :=
  (score_failure_mild img0 collabsOk segOneChan "score fail" rfl rfl).2

/-- C10: in every success result, the wound-detected flag holds exactly when
the raw wound pixel count is positive, and that count coincides with the
metrics record's wound area field (both count the set pixels of the same
wound mask). -/
theorem wound_detected_invariant (decoded : Option Img) (C : Collabs)
    (r : AnalysisRecord) (h : processImage decoded C = .success r) :
    (r.wound_detected = true ↔ 0 < r.raw_wound_area_pixels)
    ∧ r.raw_wound_area_pixels = r.wound_metrics.wound_area_pixels := by
  cases decoded with
  | none => simp [processImage] at h
  | some rgb =>
    cases hseg : C.seg with
    | error e =>
      rw [show processImage (some rgb) C
          = .failure ("Segmentation failed: " ++ e) by
        simp only [processImage, hseg]] at h
      exact absurd h (by simp)
    | ok s =>
      simp only [processImage, hseg] at h
      injection h with hr
      subst hr
      exact ⟨Mask.anyPos_iff_countPos (splitWound s), rfl⟩

/-- C10 witness: the invariant read off the concrete run on `collabsOk`. -/
theorem wound_detected_invariant_witness :
    ∃ r, processImage (some img0) collabsOk = .success r
      ∧ (r.wound_detected = true ↔ 0 < r.raw_wound_area_pixels)
      ∧ r.raw_wound_area_pixels = r.wound_metrics.wound_area_pixels := by
  refine ⟨_, rfl, ?_, ?_⟩
  · exact (wound_detected_invariant (some img0) collabsOk _ rfl).1
  · exact (wound_detected_invariant (some img0) collabsOk _ rfl).2

end WoundCare
